import Mathlib

/-!
Verification development for the Open-Job-Board-EU scraping pipeline and its
React frontend. The frontend data logic is embedded from
`frontend/src/App.jsx`; the pipeline core (merger, resolver, extractor,
adapters, persistence) is modelled from the specification, since only its
documentation and its frontend consumer ship in this tree.
-/

/-- A job posting: `{ title, url }` (spec §3). -/
structure JobPosting where
  title : String
  url : String
deriving DecidableEq, Repr

/-- A company record: the final persisted unit, and also the merger's input
shape ("CareerPage with jobs", spec §3, §4.4). -/
structure CompanyRecord where
  name : String
  website : String
  career_page_url : String
  country_of_origin : String
  source : String
  jobs : List JobPosting
deriving DecidableEq, Repr

/-- Trims leading and trailing whitespace from a character list. -/
def trimChars (l : List Char) : List Char :=
  ((l.dropWhile Char.isWhitespace).reverse.dropWhile Char.isWhitespace).reverse

/-- Modelled from the spec: adapter-side normalization of a display string for
identity comparison (trimmed, casing-normalized, spec §3). -/
def normStr (s : String) : String :=
  ⟨(trimChars s.data).map Char.toLower⟩

/-- Modelled from the spec: the registrable-domain part of a website URL, used
in the company identity key (spec §3 "website-domain"): the normalized URL
with scheme and `www.` stripped, up to the first slash. -/
def websiteDomain (w : String) : String :=
  let s := (normStr w).data
  let s := if "https://".data.isPrefixOf s then s.drop 8
           else if "http://".data.isPrefixOf s then s.drop 7 else s
  let s := if "www.".data.isPrefixOf s then s.drop 4 else s
  ⟨s.takeWhile (fun c => decide (c ≠ '/'))⟩

/-- Modelled from the spec: company identity key = normalized
`(name, website-domain)` pair (spec §3). -/
def identityKey (c : CompanyRecord) : String × String :=
  (normStr c.name, websiteDomain c.website)

/-- Modelled from the spec: the case/whitespace-normalized `(title, url)` job
dedup key (spec §3). -/
def jobKey (j : JobPosting) : String × String :=
  (normStr j.title, normStr j.url)

/-- Modelled from the spec: within-record job deduplication by `(title, url)`;
keeps the first occurrence of each key, in order (spec §3, §4.4). -/
def dedupJobs : List JobPosting → List JobPosting
  | [] => []
  | j :: js => j :: (dedupJobs js).filter (fun j2 => decide (jobKey j2 ≠ jobKey j))

/-- Modelled from the spec: identity keys of a candidate list in first-seen
order, each key once (domain of the grouping map, spec §4.4, §9). -/
def firstKeys : List CompanyRecord → List (String × String)
  | [] => []
  | c :: cs => identityKey c :: (firstKeys cs).filter (fun k => decide (k ≠ identityKey c))

/-- Modelled from the spec: tie-break — the challenger strictly beats the
incumbent when its source has higher configured precedence (lower rank), or
equal precedence and strictly more extracted jobs; otherwise the incumbent,
which was seen first, is kept (spec §4.4). -/
def beats (prio : String → Nat) (challenger incumbent : CompanyRecord) : Bool :=
  decide (prio challenger.source < prio incumbent.source) ||
    (decide (prio challenger.source = prio incumbent.source) &&
      decide (incumbent.jobs.length < challenger.jobs.length))

/-- Modelled from the spec: deterministic reducer choosing one winner from a
group of same-key candidates, scanned in first-seen order (spec §4.4, §9). -/
def pick (prio : String → Nat) : List CompanyRecord → Option CompanyRecord
  | [] => none
  | c :: cs => some (cs.foldl (fun w ch => if beats prio ch w then ch else w) c)

/-- Modelled from the spec: the winner keeps only its own jobs, deduplicated by
`(title, url)` (spec §4.4). -/
def finalize (c : CompanyRecord) : CompanyRecord :=
  { c with jobs := dedupJobs c.jobs }

/-- Modelled from the spec: the group of candidates carrying identity key `k`
(spec §4.4, §9 "grouping map from identity key to competing records"). -/
def groupFor (l : List CompanyRecord) (k : String × String) : List CompanyRecord :=
  l.filter (fun c => decide (identityKey c = k))

/-- Modelled from the spec: `merge(allCandidates) → [CompanyRecord]` — group by
identity key in first-seen order, reduce each group with the priority /
job-count / first-seen tie-break, and dedup the winner's jobs (spec §4.4). -/
def merge (prio : String → Nat) (l : List CompanyRecord) : List CompanyRecord :=
  (firstKeys l).filterMap (fun k => (pick prio (groupFor l k)).map finalize)

/-! ### Basic facts about the merger -/

theorem firstKeys_nodup (l : List CompanyRecord) : (firstKeys l).Nodup := by
  induction l with
  | nil => simp [firstKeys]
  | cons c cs ih =>
    rw [firstKeys]
    refine List.nodup_cons.mpr ⟨?_, ih.filter _⟩
    intro hmem
    have hdec := (List.mem_filter.mp hmem).2
    simp at hdec

theorem mem_firstKeys {c : CompanyRecord} {l : List CompanyRecord} (h : c ∈ l) :
    identityKey c ∈ firstKeys l := by
  induction l with
  | nil => cases h
  | cons x xs ih =>
    rcases List.mem_cons.mp h with rfl | hx
    · rw [firstKeys]; exact List.mem_cons_self _ _
    · by_cases hk : identityKey c = identityKey x
      · rw [firstKeys, hk]; exact List.mem_cons_self _ _
      · rw [firstKeys]
        exact List.mem_cons_of_mem _
          (List.mem_filter.mpr ⟨ih hx, decide_eq_true hk⟩)

theorem exists_of_mem_firstKeys {k : String × String} {l : List CompanyRecord}
    (h : k ∈ firstKeys l) : ∃ c ∈ l, identityKey c = k := by
  induction l with
  | nil => simp [firstKeys] at h
  | cons x xs ih =>
    rw [firstKeys] at h
    rcases List.mem_cons.mp h with rfl | h
    · exact ⟨x, List.mem_cons_self x xs, rfl⟩
    · rcases ih (List.mem_filter.mp h).1 with ⟨c, hc, hk⟩
      exact ⟨c, List.mem_cons_of_mem _ hc, hk⟩

theorem pick_foldl_mem (prio : String → Nat) (cs : List CompanyRecord)
    (c : CompanyRecord) :
    cs.foldl (fun w ch => if beats prio ch w then ch else w) c ∈ c :: cs := by
  induction cs generalizing c with
  | nil => simp
  | cons d ds ih =>
    rw [List.foldl_cons]
    rcases List.mem_cons.mp (ih (if beats prio d c then d else c)) with h | h
    · rw [h]
      split
      · exact List.mem_cons_of_mem _ (List.mem_cons_self _ _)
      · exact List.mem_cons_self _ _
    · exact List.mem_cons_of_mem _ (List.mem_cons_of_mem _ h)

theorem pick_mem {prio : String → Nat} {l : List CompanyRecord} {c : CompanyRecord}
    (h : pick prio l = some c) : c ∈ l := by
  cases l with
  | nil => simp [pick] at h
  | cons x xs =>
    rw [pick, Option.some.injEq] at h
    exact h ▸ pick_foldl_mem prio xs x

theorem identityKey_finalize (c : CompanyRecord) :
    identityKey (finalize c) = identityKey c := rfl

theorem dedupJobs_keys_nodup (js : List JobPosting) :
    ((dedupJobs js).map jobKey).Nodup := by
  induction js with
  | nil => simp [dedupJobs]
  | cons j js ih =>
    rw [dedupJobs, List.map_cons]
    refine List.nodup_cons.mpr ⟨?_, ?_⟩
    · intro hmem
      rcases List.mem_map.mp hmem with ⟨j2, hj2, hkey⟩
      have hd := (List.mem_filter.mp hj2).2
      rw [decide_eq_true_eq] at hd
      exact hd hkey
    · exact List.Nodup.sublist ((List.filter_sublist _).map jobKey) ih

theorem dedupJobs_of_nodup {js : List JobPosting} (h : (js.map jobKey).Nodup) :
    dedupJobs js = js := by
  induction js with
  | nil => rfl
  | cons j js ih =>
    rw [List.map_cons, List.nodup_cons] at h
    rw [dedupJobs, ih h.2, List.filter_eq_self.mpr]
    intro a ha
    rw [decide_eq_true_eq]
    intro hk
    exact h.1 (hk ▸ List.mem_map_of_mem jobKey ha)

theorem dedupJobs_idem (js : List JobPosting) :
    dedupJobs (dedupJobs js) = dedupJobs js :=
  dedupJobs_of_nodup (dedupJobs_keys_nodup js)

theorem finalize_finalize (c : CompanyRecord) : finalize (finalize c) = finalize c := by
  simp [finalize, dedupJobs_idem]

theorem mem_of_mem_groupFor {l : List CompanyRecord} {k : String × String}
    {c : CompanyRecord} (h : c ∈ groupFor l k) : c ∈ l ∧ identityKey c = k := by
  have h2 := (List.mem_filter.mp h).2
  rw [decide_eq_true_eq] at h2
  exact ⟨(List.mem_filter.mp h).1, h2⟩

theorem merge_group_key {prio : String → Nat} {l : List CompanyRecord}
    {k : String × String} {r : CompanyRecord}
    (hr : (pick prio (groupFor l k)).map finalize = some r) :
    identityKey r = k := by
  rcases Option.map_eq_some'.mp hr with ⟨c, hpick, rfl⟩
  rw [identityKey_finalize]
  exact (mem_of_mem_groupFor (pick_mem hpick)).2

theorem exists_of_mem_merge {prio : String → Nat} {l : List CompanyRecord}
    {r : CompanyRecord} (h : r ∈ merge prio l) :
    ∃ c ∈ l, r = finalize c := by
  rw [merge] at h
  rcases List.mem_filterMap.mp h with ⟨k, _, hfk⟩
  rcases Option.map_eq_some'.mp hfk with ⟨c, hpick, rfl⟩
  exact ⟨c, (mem_of_mem_groupFor (pick_mem hpick)).1, rfl⟩

theorem filterMap_group_pairwise (prio : String → Nat) (l : List CompanyRecord)
    (ks : List (String × String)) (hnd : ks.Nodup) :
    (ks.filterMap (fun k => (pick prio (groupFor l k)).map finalize)).Pairwise
      (fun a b => identityKey a ≠ identityKey b) := by
  induction ks with
  | nil => simp
  | cons k ks ih =>
    rw [List.nodup_cons] at hnd
    rw [List.filterMap_cons]
    cases hfk : (pick prio (groupFor l k)).map finalize with
    | none => exact ih hnd.2
    | some r =>
      refine List.Pairwise.cons ?_ (ih hnd.2)
      intro b hb
      rcases List.mem_filterMap.mp hb with ⟨k2, hk2, hfk2⟩
      rw [merge_group_key hfk, merge_group_key hfk2]
      exact fun he => hnd.1 (he ▸ hk2)

theorem merge_keys_pairwise (prio : String → Nat) (l : List CompanyRecord) :
    (merge prio l).Pairwise (fun a b => identityKey a ≠ identityKey b) := by
  rw [merge]
  exact filterMap_group_pairwise prio l _ (firstKeys_nodup l)

theorem merge_key_complete {prio : String → Nat} {l : List CompanyRecord}
    {c : CompanyRecord} (hc : c ∈ l) :
    ∃ r ∈ merge prio l, identityKey r = identityKey c := by
  have hk : identityKey c ∈ firstKeys l := mem_firstKeys hc
  have hg : c ∈ groupFor l (identityKey c) :=
    List.mem_filter.mpr ⟨hc, by simp⟩
  obtain ⟨w, hw⟩ : ∃ w, pick prio (groupFor l (identityKey c)) = some w := by
    cases hgl : groupFor l (identityKey c) with
    | nil => rw [hgl] at hg; cases hg
    | cons x xs => exact ⟨_, rfl⟩
  refine ⟨finalize w, ?_, ?_⟩
  · rw [merge]
    exact List.mem_filterMap.mpr ⟨identityKey c, hk, by rw [hw]; rfl⟩
  · exact @merge_group_key prio l (identityKey c) (finalize w) (by rw [hw]; rfl)

theorem merge_of_nodup_keys {prio : String → Nat} {l : List CompanyRecord}
    (h : (l.map identityKey).Nodup) : merge prio l = l.map finalize := by
  induction l with
  | nil => rfl
  | cons c cs ih =>
    rw [List.map_cons, List.nodup_cons] at h
    obtain ⟨hc, hcs⟩ := h
    have hfk : firstKeys (c :: cs) = identityKey c :: firstKeys cs := by
      rw [firstKeys, List.filter_eq_self.mpr]
      intro k hk
      rcases exists_of_mem_firstKeys hk with ⟨d, hd, rfl⟩
      rw [decide_eq_true_eq]
      intro he
      exact hc (he ▸ List.mem_map_of_mem identityKey hd)
    have htail : List.filter (fun d => decide (identityKey d = identityKey c)) cs = [] := by
      rw [List.filter_eq_nil_iff]
      intro d hd
      rw [decide_eq_true_eq]
      intro he
      exact hc (he ▸ List.mem_map_of_mem identityKey hd)
    have hgc : groupFor (c :: cs) (identityKey c) = [c] := by
      rw [groupFor, List.filter_cons]
      simp [htail]
    have hcong : ∀ k ∈ firstKeys cs,
        (pick prio (groupFor (c :: cs) k)).map finalize
          = (pick prio (groupFor cs k)).map finalize := by
      intro k hk
      rcases exists_of_mem_firstKeys hk with ⟨d, hd, rfl⟩
      have hne : identityKey c ≠ identityKey d := fun he =>
        hc (he ▸ List.mem_map_of_mem identityKey hd)
      have hg : groupFor (c :: cs) (identityKey d) = groupFor cs (identityKey d) := by
        rw [groupFor, groupFor, List.filter_cons]
        simp [hne]
      rw [hg]
    calc merge prio (c :: cs)
        = (identityKey c :: firstKeys cs).filterMap
            (fun k => (pick prio (groupFor (c :: cs) k)).map finalize) := by
          rw [merge, hfk]
      _ = finalize c :: (firstKeys cs).filterMap
            (fun k => (pick prio (groupFor (c :: cs) k)).map finalize) := by
          rw [List.filterMap_cons, hgc]
          rfl
      _ = finalize c :: (firstKeys cs).filterMap
            (fun k => (pick prio (groupFor cs k)).map finalize) := by
          rw [List.filterMap_congr hcong]
      _ = finalize c :: merge prio cs := by rw [merge]
      _ = (c :: cs).map finalize := by rw [ih hcs, List.map_cons]

theorem merge_map_keys_nodup (prio : String → Nat) (l : List CompanyRecord) :
    ((merge prio l).map identityKey).Nodup := by
  have h := merge_keys_pairwise prio l
  exact List.pairwise_map.mpr h

theorem merge_idem (prio : String → Nat) (l : List CompanyRecord) :
    merge prio (merge prio l) = merge prio l := by
  rw [merge_of_nodup_keys (merge_map_keys_nodup prio l)]
  have hid : ∀ r ∈ merge prio l, finalize r = r := by
    intro r hr
    rcases exists_of_mem_merge hr with ⟨c, _, rfl⟩
    exact finalize_finalize c
  calc (merge prio l).map finalize
      = (merge prio l).map id := List.map_congr_left hid
    _ = merge prio l := List.map_id _

theorem merge_pair {prio : String → Nat} {a b : CompanyRecord}
    (hk : identityKey a = identityKey b) :
    merge prio [a, b] = [finalize (if beats prio b a then b else a)] := by
  have h1 : firstKeys [a, b] = [identityKey a] := by
    simp [firstKeys, ← hk]
  have h2 : groupFor [a, b] (identityKey a) = [a, b] := by
    simp [groupFor, List.filter_cons, ← hk]
  rw [merge, h1, List.filterMap_cons, h2]
  rfl

/-! ### Claims about the Merger/Deduplicator -/

/-- Claim C1: in every merger output dataset no two company records share the
identity key (normalized name, website domain), and within every output record
no two job postings share the case/whitespace-normalized (title, url) pair. -/
theorem merge_unique_identity_and_job_keys (prio : String → Nat)
    (l : List CompanyRecord) :
    (merge prio l).Pairwise (fun a b => identityKey a ≠ identityKey b) ∧
    ∀ r ∈ merge prio l, (r.jobs.map jobKey).Nodup := by
  refine ⟨merge_keys_pairwise prio l, ?_⟩
  intro r hr
  rcases exists_of_mem_merge hr with ⟨c, _, rfl⟩
  exact dedupJobs_keys_nodup c.jobs

/-- Claim C1 witness: a concrete run of the merger on two same-key candidates,
one of which carries a duplicated job. -/
theorem merge_unique_identity_and_job_keys_witness :
    (merge (fun _ => 0)
        [⟨"Acme", "https://acme.eu", "https://acme.eu/careers", "Germany", "wikipedia",
          [⟨"Dev", "https://acme.eu/1"⟩, ⟨"dev", "HTTPS://acme.eu/1"⟩]⟩,
         ⟨"acme", "http://www.acme.eu/", "https://acme.eu/jobs", "Germany", "clutch", []⟩]).Pairwise
      (fun a b => identityKey a ≠ identityKey b) ∧
    ∀ r ∈ merge (fun _ => 0)
        [⟨"Acme", "https://acme.eu", "https://acme.eu/careers", "Germany", "wikipedia",
          [⟨"Dev", "https://acme.eu/1"⟩, ⟨"dev", "HTTPS://acme.eu/1"⟩]⟩,
         ⟨"acme", "http://www.acme.eu/", "https://acme.eu/jobs", "Germany", "clutch", []⟩],
      (r.jobs.map jobKey).Nodup :=
  merge_unique_identity_and_job_keys _ _

/-- Claim C2: the merger is deterministic and idempotent — merging its own
output reproduces it unchanged — and same-key ties fall back from adapter
priority to extracted-job count to first-seen order. -/
theorem merge_deterministic_idempotent (prio : String → Nat)
    (l : List CompanyRecord) (a b : CompanyRecord) :
    merge prio (merge prio l) = merge prio l ∧
    (identityKey a = identityKey b → prio a.source = prio b.source →
      a.jobs.length < b.jobs.length → (b.jobs.map jobKey).Nodup →
      merge prio [a, b] = [b]) ∧
    (identityKey a = identityKey b → prio a.source = prio b.source →
      a.jobs.length = b.jobs.length → (a.jobs.map jobKey).Nodup →
      merge prio [a, b] = [a]) := by
  refine ⟨merge_idem prio l, ?_, ?_⟩
  · intro hk hp hlen hnd
    have hb : beats prio b a = true := by
      rw [beats]
      simp [hp, hlen]
    rw [merge_pair hk, hb]
    simp [finalize, dedupJobs_of_nodup hnd]
  · intro hk hp hlen hnd
    have hb : beats prio b a = false := by
      rw [beats]
      simp [hp, hlen]
    rw [merge_pair hk, hb]
    simp [finalize, dedupJobs_of_nodup hnd]

/-- Claim C2 witness: idempotence on a concrete input, and the job-count
fallback choosing the same-priority candidate with more jobs. -/
theorem merge_deterministic_idempotent_witness :
    merge (fun _ => 0)
        (merge (fun _ => 0)
          [⟨"Acme", "acme.eu", "u1", "Germany", "wikipedia", []⟩,
           ⟨"Acme", "acme.eu", "u2", "Germany", "clutch", [⟨"Dev", "j1"⟩]⟩])
      = merge (fun _ => 0)
          [⟨"Acme", "acme.eu", "u1", "Germany", "wikipedia", []⟩,
           ⟨"Acme", "acme.eu", "u2", "Germany", "clutch", [⟨"Dev", "j1"⟩]⟩] ∧
    merge (fun _ => 0)
        [⟨"Acme", "acme.eu", "u1", "Germany", "wikipedia", []⟩,
         ⟨"Acme", "acme.eu", "u2", "Germany", "clutch", [⟨"Dev", "j1"⟩]⟩]
      = [⟨"Acme", "acme.eu", "u2", "Germany", "clutch", [⟨"Dev", "j1"⟩]⟩] :=
  ⟨(merge_deterministic_idempotent (fun _ => 0)
      [⟨"Acme", "acme.eu", "u1", "Germany", "wikipedia", []⟩,
       ⟨"Acme", "acme.eu", "u2", "Germany", "clutch", [⟨"Dev", "j1"⟩]⟩]
      ⟨"Acme", "acme.eu", "u1", "Germany", "wikipedia", []⟩
      ⟨"Acme", "acme.eu", "u2", "Germany", "clutch", [⟨"Dev", "j1"⟩]⟩).1,
   (merge_deterministic_idempotent (fun _ => 0) []
      ⟨"Acme", "acme.eu", "u1", "Germany", "wikipedia", []⟩
      ⟨"Acme", "acme.eu", "u2", "Germany", "clutch", [⟨"Dev", "j1"⟩]⟩).2.1
     rfl rfl (by decide) (by decide)⟩

/-- Claim C3: with two same-key candidates where source A outranks source B in
the configured priority order, the merged record is exactly A's record — its
job list is A's extracted list and nothing from B — in either input order. -/
theorem merge_priority_source_wins (prio : String → Nat) (a b : CompanyRecord)
    (hk : identityKey a = identityKey b)
    (hp : prio a.source < prio b.source)
    (hj : (a.jobs.map jobKey).Nodup) :
    merge prio [a, b] = [a] ∧ merge prio [b, a] = [a] := by
  have hba : beats prio b a = false := by
    rw [beats]
    simp only [Bool.or_eq_false_iff, Bool.and_eq_false_iff, decide_eq_false_iff_not]
    omega
  have hab : beats prio a b = true := by
    rw [beats]
    simp [hp]
  have hfa : finalize a = a := by
    simp [finalize, dedupJobs_of_nodup hj]
  constructor
  · rw [merge_pair hk, hba]
    simp [hfa]
  · rw [merge_pair hk.symm, hab]
    simp [hfa]

/-- Claim C3 witness: a concrete higher-priority wikipedia candidate beating a
clutch candidate with a different job list, in both input orders. -/
theorem merge_priority_source_wins_witness :
    merge (fun s => if s = "wikipedia" then 0 else 1)
        [⟨"Acme", "acme.eu", "u1", "Germany", "wikipedia", [⟨"Dev", "j1"⟩]⟩,
         ⟨"Acme", "acme.eu", "u2", "Germany", "clutch", [⟨"QA", "j2"⟩, ⟨"PM", "j3"⟩]⟩]
      = [⟨"Acme", "acme.eu", "u1", "Germany", "wikipedia", [⟨"Dev", "j1"⟩]⟩] ∧
    merge (fun s => if s = "wikipedia" then 0 else 1)
        [⟨"Acme", "acme.eu", "u2", "Germany", "clutch", [⟨"QA", "j2"⟩, ⟨"PM", "j3"⟩]⟩,
         ⟨"Acme", "acme.eu", "u1", "Germany", "wikipedia", [⟨"Dev", "j1"⟩]⟩]
      = [⟨"Acme", "acme.eu", "u1", "Germany", "wikipedia", [⟨"Dev", "j1"⟩]⟩] :=
  merge_priority_source_wins _ _ _ rfl (by decide) (by decide)

/-! ### The pipeline around the merger: resolver, extractor, adapters -/

/-- A company candidate as emitted by a Source Adapter (spec §3). -/
structure CompanyCandidate where
  name : String
  website : String
  country_of_origin : String
  source : String
deriving DecidableEq, Repr

/-- Modelled from the spec: identity key of a candidate, with the same
normalization as for records (spec §3). -/
def candidateKey (c : CompanyCandidate) : String × String :=
  (normStr c.name, websiteDomain c.website)

/-- Modelled from the spec: error taxonomy for scraping (spec §7). -/
inductive ScrapeError
  | transientNetworkError
  | permanentFetchError
deriving DecidableEq, Repr

/-- Health statuses of one adapter run (spec §3). -/
inductive HealthStatus
  | ok
  | degraded
  | failed
deriving DecidableEq, Repr

/-- A per-source, per-run health record (spec §3). -/
structure SourceHealthRecord where
  source : String
  status : HealthStatus
  company_count : Nat
  error : String
  observed_at : Nat
deriving DecidableEq, Repr

/-- Modelled from the spec: the Resolver and Extractor stage for one candidate —
a candidate whose resolver returns no validated career page is dropped;
otherwise the extractor's jobs for that career page are attached
(spec §2 control flow, §4.2, §4.3). -/
def stageCandidate (resolve : CompanyCandidate → Option String)
    (extract : String → List JobPosting) (c : CompanyCandidate) :
    Option CompanyRecord :=
  (resolve c).map (fun u =>
    { name := c.name, website := c.website, career_page_url := u,
      country_of_origin := c.country_of_origin, source := c.source,
      jobs := extract u })

/-- Modelled from the spec: the dataset produced from one run's candidate pool —
resolve, extract, then merge (spec §2 control flow). -/
def pipelineOutput (prio : String → Nat) (resolve : CompanyCandidate → Option String)
    (extract : String → List JobPosting) (cands : List CompanyCandidate) :
    List CompanyRecord :=
  merge prio (cands.filterMap (stageCandidate resolve extract))

theorem exists_of_mem_pipelineOutput {prio : String → Nat}
    {resolve : CompanyCandidate → Option String} {extract : String → List JobPosting}
    {cands : List CompanyCandidate} {r : CompanyRecord}
    (hr : r ∈ pipelineOutput prio resolve extract cands) :
    ∃ c ∈ cands, ∃ u, resolve c = some u ∧
      identityKey r = candidateKey c ∧ r.career_page_url = u := by
  rcases exists_of_mem_merge hr with ⟨m, hm, rfl⟩
  rcases List.mem_filterMap.mp hm with ⟨c, hc, hstage⟩
  rw [stageCandidate] at hstage
  rcases Option.map_eq_some'.mp hstage with ⟨u, hu, hmu⟩
  exact ⟨c, hc, u, hu, by rw [identityKey_finalize, ← hmu]; rfl, by rw [← hmu]; rfl⟩

/-- Claim C4, as stated, is false: a candidate whose resolver returns null can
still see its identity key in the final output, contributed by a same-key
candidate from another source that did resolve. Here the clutch candidate for
Acme does not resolve, yet an Acme record is in the output via wikipedia. -/
theorem resolver_drop_counterexample :
    (fun c : CompanyCandidate =>
        if c.source = "wikipedia" then some "https://acme.eu/careers" else none)
      ⟨"Acme", "https://acme.eu", "Germany", "clutch"⟩ = none ∧
    ∃ r ∈ pipelineOutput (fun _ => 0)
        (fun c => if c.source = "wikipedia" then some "https://acme.eu/careers" else none)
        (fun _ => [])
        [⟨"Acme", "https://acme.eu", "Germany", "wikipedia"⟩,
         ⟨"Acme", "https://acme.eu", "Germany", "clutch"⟩],
      identityKey r = candidateKey ⟨"Acme", "https://acme.eu", "Germany", "clutch"⟩ := by
  constructor
  · rfl
  · exact ⟨⟨"Acme", "https://acme.eu", "https://acme.eu/careers", "Germany", "wikipedia", []⟩,
      by decide, by decide⟩

/-- Claim C4 (amended): a candidate without a resolvable career page
contributes nothing — if no candidate carrying an identity key resolves, no
record with that key appears in the output — and every output record's
career page URL comes from a successful resolution, hence is non-empty
whenever the resolver only returns non-empty URLs. -/
theorem resolver_drop_amended (prio : String → Nat)
    (resolve : CompanyCandidate → Option String) (extract : String → List JobPosting)
    (cands : List CompanyCandidate)
    (hres : ∀ c u, resolve c = some u → u ≠ "") :
    (∀ k, (∀ c ∈ cands, candidateKey c = k → resolve c = none) →
      ∀ r ∈ pipelineOutput prio resolve extract cands, identityKey r ≠ k) ∧
    (∀ r ∈ pipelineOutput prio resolve extract cands, r.career_page_url ≠ "") := by
  constructor
  · intro k hall r hr hkey
    rcases exists_of_mem_pipelineOutput hr with ⟨c, hc, u, hu, hck, _⟩
    rw [hall c hc (by rw [← hck, hkey])] at hu
    cases hu
  · intro r hr
    rcases exists_of_mem_pipelineOutput hr with ⟨c, _, u, hu, _, hcp⟩
    rw [hcp]
    exact hres c u hu

/-- Claim C4 witness: the amended drop invariant applied to a concrete run
where the only Acme candidate fails to resolve. -/
theorem resolver_drop_amended_witness :
    (∀ k, (∀ c ∈ [(⟨"Acme", "acme.eu", "Germany", "clutch"⟩ : CompanyCandidate)],
        candidateKey c = k →
          (fun c : CompanyCandidate =>
            if c.source = "wikipedia" then some "https://acme.eu/careers" else none) c = none) →
      ∀ r ∈ pipelineOutput (fun _ => 0)
          (fun c => if c.source = "wikipedia" then some "https://acme.eu/careers" else none)
          (fun _ => []) [⟨"Acme", "acme.eu", "Germany", "clutch"⟩],
        identityKey r ≠ k) ∧
    (∀ r ∈ pipelineOutput (fun _ => 0)
        (fun c => if c.source = "wikipedia" then some "https://acme.eu/careers" else none)
        (fun _ => []) [⟨"Acme", "acme.eu", "Germany", "clutch"⟩],
      r.career_page_url ≠ "") :=
  resolver_drop_amended _ _ _ _
    (by
      intro c u h
      by_cases hc : c.source = "wikipedia"
      · rw [if_pos hc, Option.some.injEq] at h
        rw [← h]
        decide
      · rw [if_neg hc] at h
        cases h)

/-! ### Adapters, health tracking and the orchestrator -/

/-- Modelled from the spec: a Source Adapter after its internal retry/backoff
policy has run its course — `fetch` is the adapter's final outcome for this
run, either its normalized candidates or the error it kept hitting
(spec §4.1, §7). -/
structure SourceAdapter where
  id : String
  fetch : Except ScrapeError (List CompanyCandidate)

/-- The report string attached to a failed adapter run (spec §7 taxonomy). -/
def errorMessage : ScrapeError → String
  | .transientNetworkError => "TransientNetworkError"
  | .permanentFetchError => "PermanentFetchError"

/-- Modelled from the spec: the adapter boundary — an adapter never throws past
itself; an error becomes a `Failed` health record with zero candidates, a
success an `Ok` record counting the adapter's own output (spec §4.1, §3). -/
def runAdapter (now : Nat) (a : SourceAdapter) :
    List CompanyCandidate × SourceHealthRecord :=
  match a.fetch with
  | .error e => ([], ⟨a.id, .failed, 0, errorMessage e, now⟩)
  | .ok cs => (cs, ⟨a.id, .ok, cs.length, "", now⟩)

/-- Whether a health record reports a non-`Ok` (Degraded or Failed) run. -/
def isDegradedOrFailed : HealthStatus → Bool
  | .ok => false
  | .degraded => true
  | .failed => true

/-- Modelled from the spec: the orchestrator — run every adapter behind its
boundary, concatenate all candidates at the single consolidation point, merge,
and record one health record per adapter (spec §4.6, §5). -/
def runPipeline (prio : String → Nat) (resolve : CompanyCandidate → Option String)
    (extract : String → List JobPosting) (now : Nat)
    (adapters : List SourceAdapter) :
    List CompanyRecord × List SourceHealthRecord :=
  let runs := adapters.map (runAdapter now)
  (pipelineOutput prio resolve extract (runs.map Prod.fst).flatten,
   runs.map Prod.snd)

/-- Claim C5: with three adapters of which the middle one persistently raises
`TransientNetworkError`, the run still completes with the two successful
adapters' candidates feeding the dataset, the failure never crosses the
adapter boundary (it surfaces only as a health record), and exactly one
Failed/Degraded health record is recorded for the failing source. -/
theorem adapter_failure_isolated (prio : String → Nat)
    (resolve : CompanyCandidate → Option String) (extract : String → List JobPosting)
    (now : Nat) (a b c : SourceAdapter) (la lc : List CompanyCandidate)
    (ha : a.fetch = .ok la) (hb : b.fetch = .error .transientNetworkError)
    (hc : c.fetch = .ok lc) :
    runPipeline prio resolve extract now [a, b, c]
      = (pipelineOutput prio resolve extract (la ++ lc),
         [⟨a.id, .ok, la.length, "", now⟩,
          ⟨b.id, .failed, 0, "TransientNetworkError", now⟩,
          ⟨c.id, .ok, lc.length, "", now⟩]) ∧
    ((runPipeline prio resolve extract now [a, b, c]).2.filter
        (fun h => decide (h.source = b.id) && isDegradedOrFailed h.status)).length = 1 := by
  have h1 : runPipeline prio resolve extract now [a, b, c]
      = (pipelineOutput prio resolve extract (la ++ lc),
         [⟨a.id, .ok, la.length, "", now⟩,
          ⟨b.id, .failed, 0, "TransientNetworkError", now⟩,
          ⟨c.id, .ok, lc.length, "", now⟩]) := by
    simp [runPipeline, runAdapter, ha, hb, hc, errorMessage]
  refine ⟨h1, ?_⟩
  rw [h1]
  simp [List.filter, isDegradedOrFailed]

/-- Claim C5 witness: a concrete three-adapter run where the middle adapter
fails with a transient network error. -/
theorem adapter_failure_isolated_witness :
    runPipeline (fun _ => 0) (fun _ => none) (fun _ => []) 7
        [⟨"wikipedia", .ok [⟨"Acme", "acme.eu", "Germany", "wikipedia"⟩]⟩,
         ⟨"clutch", .error .transientNetworkError⟩,
         ⟨"eu_startups", .ok []⟩]
      = (pipelineOutput (fun _ => 0) (fun _ => none) (fun _ => [])
           ([⟨"Acme", "acme.eu", "Germany", "wikipedia"⟩] ++ []),
         [⟨"wikipedia", .ok, [(⟨"Acme", "acme.eu", "Germany", "wikipedia"⟩ : CompanyCandidate)].length, "", 7⟩,
          ⟨"clutch", .failed, 0, "TransientNetworkError", 7⟩,
          ⟨"eu_startups", .ok, ([] : List CompanyCandidate).length, "", 7⟩]) ∧
    ((runPipeline (fun _ => 0) (fun _ => none) (fun _ => []) 7
        [⟨"wikipedia", .ok [⟨"Acme", "acme.eu", "Germany", "wikipedia"⟩]⟩,
         ⟨"clutch", .error .transientNetworkError⟩,
         ⟨"eu_startups", .ok []⟩]).2.filter
        (fun h => decide (h.source = "clutch") && isDegradedOrFailed h.status)).length = 1 :=
  adapter_failure_isolated _ _ _ _ _ _ _ _ _ rfl rfl rfl

/-! ### Persistence with atomic replace -/

/-- The pipeline's persisted artifacts: the company dataset and the source
health dataset (spec §6). -/
structure Dataset where
  companies : List CompanyRecord
  health : List SourceHealthRecord
deriving DecidableEq, Repr

/-- The only run-fatal error visible to the orchestrator's caller (spec §7). -/
inductive RunError
  | persistenceError
deriving DecidableEq, Repr

/-- Modelled from the spec: the output location — the published dataset read by
consumers, plus the temporary write location used by atomic replace
(spec §6). -/
structure OutputStore where
  main : Dataset
  tmp : Option (List CompanyRecord)
deriving DecidableEq, Repr

/-- Modelled from the spec: a consumer only ever reads the published output,
never the temporary location (spec §6). -/
def consumerView (st : OutputStore) : Dataset := st.main

/-- Modelled from the spec: the single persistence attempt — records are
written to the temporary location and, only if the whole write succeeds, the
temporary file atomically replaces the published output; a write failing after
`n` records leaves a truncated temp file, reports `PersistenceError` without a
retry, and the published dataset is untouched (spec §4.6, §6, §7).
`failAt = none` means the write succeeds. -/
def persistDataset (failAt : Option Nat) (d : Dataset) (st : OutputStore) :
    Except RunError Unit × OutputStore :=
  match failAt with
  | none => (.ok (), { main := d, tmp := none })
  | some n => (.error .persistenceError, { main := st.main, tmp := some (d.companies.take n) })

/-- Modelled from the spec: a full run — scrape all adapters, merge, then
persist the two datasets in one write (spec §4.6). -/
def runFull (prio : String → Nat) (resolve : CompanyCandidate → Option String)
    (extract : String → List JobPosting) (now : Nat)
    (adapters : List SourceAdapter) (failAt : Option Nat) (st : OutputStore) :
    Except RunError Unit × OutputStore :=
  persistDataset failAt
    ⟨(runPipeline prio resolve extract now adapters).1,
     (runPipeline prio resolve extract now adapters).2⟩ st

/-- Claim C6: if the final write fails the run terminates as failed (the error
escapes, the write is a single attempt) and the previously published dataset is
unchanged; in every case a consumer sees either the old or the complete new
dataset, never a partially written one. -/
theorem persistence_failure_atomic (prio : String → Nat)
    (resolve : CompanyCandidate → Option String) (extract : String → List JobPosting)
    (now : Nat) (adapters : List SourceAdapter) (failAt : Option Nat)
    (st : OutputStore) :
    (consumerView (runFull prio resolve extract now adapters failAt st).2
        = consumerView st ∨
      consumerView (runFull prio resolve extract now adapters failAt st).2
        = ⟨(runPipeline prio resolve extract now adapters).1,
           (runPipeline prio resolve extract now adapters).2⟩) ∧
    (∀ n, failAt = some n →
      (runFull prio resolve extract now adapters failAt st).1
          = .error .persistenceError ∧
      consumerView (runFull prio resolve extract now adapters failAt st).2
          = consumerView st) ∧
    (failAt = none →
      (runFull prio resolve extract now adapters failAt st).1 = .ok ()) := by
  refine ⟨?_, ?_, ?_⟩
  · cases failAt with
    | none => right; rfl
    | some n => left; rfl
  · intro n hn
    subst hn
    exact ⟨rfl, rfl⟩
  · intro hn
    subst hn
    rfl

/-- Claim C6 witness: a concrete run whose write fails after one record. -/
theorem persistence_failure_atomic_witness :
    (consumerView (runFull (fun _ => 0) (fun _ => none) (fun _ => []) 0 []
          (some 1) ⟨⟨[], []⟩, none⟩).2
        = consumerView ⟨⟨[], []⟩, none⟩ ∨
      consumerView (runFull (fun _ => 0) (fun _ => none) (fun _ => []) 0 []
          (some 1) ⟨⟨[], []⟩, none⟩).2
        = ⟨(runPipeline (fun _ => 0) (fun _ => none) (fun _ => []) 0 []).1,
           (runPipeline (fun _ => 0) (fun _ => none) (fun _ => []) 0 []).2⟩) ∧
    (∀ n, (some 1 : Option Nat) = some n →
      (runFull (fun _ => 0) (fun _ => none) (fun _ => []) 0 []
          (some 1) ⟨⟨[], []⟩, none⟩).1 = .error .persistenceError ∧
      consumerView (runFull (fun _ => 0) (fun _ => none) (fun _ => []) 0 []
          (some 1) ⟨⟨[], []⟩, none⟩).2 = consumerView ⟨⟨[], []⟩, none⟩) ∧
    ((some 1 : Option Nat) = none →
      (runFull (fun _ => 0) (fun _ => none) (fun _ => []) 0 []
          (some 1) ⟨⟨[], []⟩, none⟩).1 = .ok ()) :=
  persistence_failure_atomic _ _ _ _ _ _ _

/-! ### The Job Extractor boundary -/

/-- Modelled from the spec: the Job Extractor — a page-fetch error or no
postings found yields an empty job list, never an error; successful extraction
collapses duplicate-looking entries at extraction time (spec §4.3). -/
def extractJobs (fetchPage : String → Except ScrapeError (List JobPosting))
    (u : String) : List JobPosting :=
  match fetchPage u with
  | .error _ => []
  | .ok js => dedupJobs js

/-- Claim C7: extraction failure for a candidate with a validated career page
yields an empty job list rather than an error, and the company is still
represented in the merged output — in the single-candidate case as a record
with `jobs = []` — never dropped because of extraction failure. -/
theorem extraction_failure_keeps_company (prio : String → Nat)
    (resolve : CompanyCandidate → Option String)
    (fetchPage : String → Except ScrapeError (List JobPosting))
    (cands : List CompanyCandidate) (c : CompanyCandidate) (u : String)
    (e : ScrapeError) (hc : c ∈ cands) (hu : resolve c = some u)
    (he : fetchPage u = .error e) :
    extractJobs fetchPage u = [] ∧
    (∃ r ∈ pipelineOutput prio resolve (extractJobs fetchPage) cands,
        identityKey r = candidateKey c) ∧
    pipelineOutput prio resolve (extractJobs fetchPage) [c]
      = [⟨c.name, c.website, u, c.country_of_origin, c.source, []⟩] := by
  have hext : extractJobs fetchPage u = [] := by
    rw [extractJobs, he]
  refine ⟨hext, ?_, ?_⟩
  · have hm : stageCandidate resolve (extractJobs fetchPage) c
        = some { name := c.name, website := c.website, career_page_url := u,
                 country_of_origin := c.country_of_origin, source := c.source,
                 jobs := extractJobs fetchPage u } := by
      rw [stageCandidate, hu]
      rfl
    have hmem : { name := c.name, website := c.website, career_page_url := u,
                  country_of_origin := c.country_of_origin, source := c.source,
                  jobs := extractJobs fetchPage u }
        ∈ cands.filterMap (stageCandidate resolve (extractJobs fetchPage)) :=
      List.mem_filterMap.mpr ⟨c, hc, hm⟩
    rcases @merge_key_complete prio _ _ hmem with ⟨r, hr, hkey⟩
    exact ⟨r, hr, hkey⟩
  · have hm : stageCandidate resolve (extractJobs fetchPage) c
        = some { name := c.name, website := c.website, career_page_url := u,
                 country_of_origin := c.country_of_origin, source := c.source,
                 jobs := ([] : List JobPosting) } := by
      rw [stageCandidate, hu, Option.map_some', hext]
    rw [pipelineOutput, List.filterMap_cons, hm, List.filterMap_nil]
    rw [merge_of_nodup_keys (by simp), List.map_cons, List.map_nil]
    rfl

/-- Claim C7 witness: a concrete candidate whose career page resolves but whose
page fetch fails; the company survives with an empty job list. -/
theorem extraction_failure_keeps_company_witness :
    extractJobs (fun _ => .error .transientNetworkError) "acme.eu/careers" = [] ∧
    (∃ r ∈ pipelineOutput (fun _ => 0) (fun _ => some "acme.eu/careers")
        (extractJobs (fun _ => .error .transientNetworkError))
        [⟨"Acme", "acme.eu", "Germany", "wikipedia"⟩],
      identityKey r = candidateKey ⟨"Acme", "acme.eu", "Germany", "wikipedia"⟩) ∧
    pipelineOutput (fun _ => 0) (fun _ => some "acme.eu/careers")
        (extractJobs (fun _ => .error .transientNetworkError))
        [⟨"Acme", "acme.eu", "Germany", "wikipedia"⟩]
      = [⟨"Acme", "acme.eu", "acme.eu/careers", "Germany", "wikipedia", []⟩] :=
  extraction_failure_keeps_company _ _ _ _ _ _ .transientNetworkError
    (List.mem_cons_self _ _) rfl rfl

/-! ### The persisted record schema -/

/-- A serialized field value of the persisted companies dataset. -/
inductive FieldValue
  | str (s : String)
  | jobsList (js : List JobPosting)
deriving DecidableEq, Repr

/-- Modelled from the spec: serialization of one `CompanyRecord` into the
persisted companies dataset — exactly the six documented fields, `jobs`
included (spec §3, §6; README "Data Schema"). -/
def serializeRecord (r : CompanyRecord) : List (String × FieldValue) :=
  [("name", .str r.name), ("website", .str r.website),
   ("career_page_url", .str r.career_page_url),
   ("country_of_origin", .str r.country_of_origin),
   ("source", .str r.source), ("jobs", .jobsList r.jobs)]

/-- Claim C8: every record in a persisted (merged) company dataset serializes
to exactly the fields name, website, career_page_url, country_of_origin,
source and jobs; in particular the `jobs` field is always present and holds
the record's job list. -/
theorem persisted_record_schema (prio : String → Nat) (l : List CompanyRecord)
    (r : CompanyRecord) (_hr : r ∈ merge prio l) :
    (serializeRecord r).map Prod.fst
      = ["name", "website", "career_page_url", "country_of_origin", "source", "jobs"] ∧
    (serializeRecord r).lookup "jobs" = some (.jobsList r.jobs) := by
  exact ⟨rfl, by simp [serializeRecord, List.lookup]⟩

/-- Claim C8 witness: the schema of the single record merged from a concrete
one-candidate dataset. -/
theorem persisted_record_schema_witness :
    (serializeRecord ⟨"Acme", "acme.eu", "u", "Germany", "wikipedia", []⟩).map Prod.fst
      = ["name", "website", "career_page_url", "country_of_origin", "source", "jobs"] ∧
    (serializeRecord ⟨"Acme", "acme.eu", "u", "Germany", "wikipedia", []⟩).lookup "jobs"
      = some (.jobsList ([] : List JobPosting)) :=
  persisted_record_schema (fun _ => 0)
    [⟨"Acme", "acme.eu", "u", "Germany", "wikipedia", []⟩]
    ⟨"Acme", "acme.eu", "u", "Germany", "wikipedia", []⟩ (by decide)

/-! ### Frontend data logic, embedded from `frontend/src/App.jsx` -/

/-- A company object as consumed by the frontend; the `jobs` field may be
absent in the payload, which `App.jsx` guards with `company.jobs || []`. -/
structure FrontCompany where
  name : String
  website : String
  career_page_url : String
  country_of_origin : String
  source : String
  jobs : Option (List JobPosting)
deriving DecidableEq, Repr

/-- Embedding of the `(company.jobs || [])` guard. -/
def companyJobs (c : FrontCompany) : List JobPosting := c.jobs.getD []

/-- Embedding of the JavaScript `||` idiom on strings: the empty string is
falsy, so `a || b` is `b` exactly when `a` is empty. -/
def jsOr (a b : String) : String := if a = "" then b else a

/-- Embedding of `String.prototype.includes`: `q` occurs in `s` exactly when
splitting `s` on a non-empty `q` yields more than one part. -/
def strIncludes (s q : String) : Bool :=
  decide (q = "") || decide (2 ≤ (s.splitOn q).length)

/-- Stable insertion used to model the stable JavaScript `Array.prototype.sort`:
an element is placed after every earlier element it does not strictly
precede. -/
def insertBefore {α : Type} (lt : α → α → Bool) (x : α) : List α → List α
  | [] => [x]
  | y :: ys => if lt x y then x :: y :: ys else y :: insertBefore lt x ys

/-- Model of the stable JavaScript sort with comparator `cmp`; `lt x y` stands
for `cmp(x, y) < 0`. -/
def stableSort {α : Type} (lt : α → α → Bool) (l : List α) : List α :=
  l.foldl (fun acc x => insertBefore lt x acc) []

/-- The filter and sort UI state read by `visibleCompanies` in `App.jsx`. -/
structure FilterState where
  searchTerm : String
  selectedCountries : List String
  selectedSources : List String
  selectedCompanies : List String
  selectedHasJobs : List String
  sortBy : String
  sortOrder : String
deriving Repr

/-- Embedding of `visibleCompanies` from the Bootstrap `App` (App.jsx lines
200-249): country / source / company / has-jobs filters, free-text search over
name, country, source and job fields, then a stable sort by the selected key
and an optional reversal. `lc` models `String.prototype.localeCompare`. -/
def visibleCompaniesBootstrap (lc : String → String → Int)
    (companies : List FrontCompany) (fs : FilterState) : List FrontCompany :=
  let q := fs.searchTerm.trim.toLower
  let list := companies
  let list := if 0 < fs.selectedCountries.length then
      list.filter (fun c => fs.selectedCountries.contains c.country_of_origin)
    else list
  let list := if 0 < fs.selectedSources.length then
      list.filter (fun c => fs.selectedSources.contains c.source)
    else list
  let list := if 0 < fs.selectedCompanies.length then
      list.filter (fun c => fs.selectedCompanies.contains c.name)
    else list
  let list := if fs.selectedHasJobs.length = 1 then
      if fs.selectedHasJobs.headD "" = "with_jobs" then
        list.filter (fun c => 0 < (companyJobs c).length)
      else if fs.selectedHasJobs.headD "" = "without_jobs" then
        list.filter (fun c => (companyJobs c).length = 0)
      else list
    else list
  let list := if q ≠ "" then
      list.filter (fun c =>
        strIncludes c.name.toLower q ||
        strIncludes c.country_of_origin.toLower q ||
        strIncludes c.source.toLower q ||
        (companyJobs c).any (fun j =>
          strIncludes (jsOr j.title "").toLower q ||
          strIncludes (jsOr j.url "").toLower q))
    else list
  let sorted := if fs.sortBy = "country" then
      stableSort (fun a b => decide (lc a.country_of_origin b.country_of_origin < 0)) list
    else if fs.sortBy = "source" then
      stableSort (fun a b => decide (lc a.source b.source < 0)) list
    else if fs.sortBy = "jobs_count" then
      stableSort (fun a b => decide ((companyJobs a).length < (companyJobs b).length)) list
    else
      stableSort (fun a b => decide (lc a.name b.name < 0)) list
  if fs.sortOrder = "desc" then sorted.reverse else sorted

/-- Embedding of `visibleCompanies` from the shadcn/Tailwind `App` (App.jsx
lines 1003-1052), transcribed independently from that copy. -/
def visibleCompaniesShadcn (lc : String → String → Int)
    (companies : List FrontCompany) (fs : FilterState) : List FrontCompany :=
  let q := fs.searchTerm.trim.toLower
  let list := companies
  let list := if 0 < fs.selectedCountries.length then
      list.filter (fun c => fs.selectedCountries.contains c.country_of_origin)
    else list
  let list := if 0 < fs.selectedSources.length then
      list.filter (fun c => fs.selectedSources.contains c.source)
    else list
  let list := if 0 < fs.selectedCompanies.length then
      list.filter (fun c => fs.selectedCompanies.contains c.name)
    else list
  let list := if fs.selectedHasJobs.length = 1 then
      if fs.selectedHasJobs.headD "" = "with_jobs" then
        list.filter (fun c => 0 < (companyJobs c).length)
      else if fs.selectedHasJobs.headD "" = "without_jobs" then
        list.filter (fun c => (companyJobs c).length = 0)
      else list
    else list
  let list := if q ≠ "" then
      list.filter (fun c =>
        strIncludes c.name.toLower q ||
        strIncludes c.country_of_origin.toLower q ||
        strIncludes c.source.toLower q ||
        (companyJobs c).any (fun j =>
          strIncludes (jsOr j.title "").toLower q ||
          strIncludes (jsOr j.url "").toLower q))
    else list
  let sorted := if fs.sortBy = "country" then
      stableSort (fun a b => decide (lc a.country_of_origin b.country_of_origin < 0)) list
    else if fs.sortBy = "source" then
      stableSort (fun a b => decide (lc a.source b.source < 0)) list
    else if fs.sortBy = "jobs_count" then
      stableSort (fun a b => decide ((companyJobs a).length < (companyJobs b).length)) list
    else
      stableSort (fun a b => decide (lc a.name b.name < 0)) list
  if fs.sortOrder = "desc" then sorted.reverse else sorted

/-- The stats shape returned by `buildStatsFromCompanies` in `App.jsx`. -/
structure Stats where
  companies_count : Nat
  companies_with_jobs_count : Nat
  total_jobs_count : Nat
deriving DecidableEq, Repr

/-- Embedding of `buildStatsFromCompanies` from the Bootstrap `App` (App.jsx
lines 87-95). -/
def buildStatsFromCompaniesBootstrap (companies : List FrontCompany) : Stats :=
  { companies_count := companies.length,
    companies_with_jobs_count :=
      (companies.filter (fun c => 0 < (companyJobs c).length)).length,
    total_jobs_count :=
      companies.foldl (fun sum c => sum + (companyJobs c).length) 0 }

/-- Embedding of `buildStatsFromCompanies` from the shadcn/Tailwind `App`
(App.jsx lines 886-894), transcribed independently from that copy. -/
def buildStatsFromCompaniesShadcn (companies : List FrontCompany) : Stats :=
  { companies_count := companies.length,
    companies_with_jobs_count :=
      (companies.filter (fun c => 0 < (companyJobs c).length)).length,
    total_jobs_count :=
      companies.foldl (fun sum c => sum + (companyJobs c).length) 0 }

/-- Claim C9: the two `App` implementations in `App.jsx` have extensionally
equal data logic — for every companies list, every filter/sort state and every
localeCompare behaviour, both copies of `visibleCompanies` agree, and both
copies of `buildStatsFromCompanies` agree. -/
theorem app_variants_data_logic_equal (lc : String → String → Int)
    (companies : List FrontCompany) (fs : FilterState) :
    visibleCompaniesBootstrap lc companies fs = visibleCompaniesShadcn lc companies fs ∧
    buildStatsFromCompaniesBootstrap companies = buildStatsFromCompaniesShadcn companies :=
  ⟨rfl, rfl⟩

/-- A flattened job card as built by `jobCards` in `App.jsx`. -/
structure JobCard where
  key : String
  title : String
  url : String
  company_name : String
  company_website : String
  career_page_url : String
  country_of_origin : String
  source : String
deriving DecidableEq, Repr

/-- Embedding of `jobCards` (App.jsx lines 255-273): one card per job of each
visible company, keyed by `name::(url || title)`. -/
def jobCardsOf (visible : List FrontCompany) : List JobCard :=
  visible.flatMap (fun c => (companyJobs c).map (fun j =>
    { key := c.name ++ "::" ++ jsOr j.url j.title,
      title := jsOr j.title "Untitled role",
      url := jsOr j.url "",
      company_name := c.name,
      company_website := c.website,
      career_page_url := c.career_page_url,
      country_of_origin := c.country_of_origin,
      source := c.source }))

/-- `pageSize` (App.jsx line 275). -/
def pageSize : Nat := 10

/-- Embedding of `totalPages = Math.max(1, Math.ceil(jobCards.length / pageSize))`
(App.jsx line 276), with ceiling division written over naturals. -/
def totalPages (cards : List JobCard) : Nat :=
  max 1 ((cards.length + pageSize - 1) / pageSize)

/-- Embedding of `paginatedJobCards = jobCards.slice(start, start + pageSize)`
with `start = (currentPage - 1) * pageSize` (App.jsx lines 277-280). -/
def paginatedJobCards (cards : List JobCard) (currentPage : Nat) : List JobCard :=
  (cards.drop ((currentPage - 1) * pageSize)).take pageSize

/-- Embedding of the clamping effect
`if (currentPage > totalPages) setCurrentPage(totalPages)`
(App.jsx lines 291-295): the page index the UI ends up displaying. -/
def clampedPage (cards : List JobCard) (currentPage : Nat) : Nat :=
  if totalPages cards < currentPage then totalPages cards else currentPage

/-- Claim C10: pagination is total and in range — `totalPages` is at least 1
even for an empty card list, a page slice never exceeds `pageSize` cards, a
current page beyond `totalPages` is clamped back to it, and the displayed page
index always lies between 1 and `totalPages`. -/
theorem pagination_total_and_in_range (cards : List JobCard) (p : Nat)
    (hp : 1 ≤ p) :
    1 ≤ totalPages cards ∧
    (paginatedJobCards cards p).length ≤ pageSize ∧
    (totalPages cards < p → clampedPage cards p = totalPages cards) ∧
    1 ≤ clampedPage cards p ∧ clampedPage cards p ≤ totalPages cards := by
  refine ⟨Nat.le_max_left _ _, ?_, ?_, ?_, ?_⟩
  · rw [paginatedJobCards]
    exact List.length_take_le _ _
  · intro h
    rw [clampedPage, if_pos h]
  · rw [clampedPage]
    split
    · exact Nat.le_max_left _ _
    · exact hp
  · rw [clampedPage]
    split
    · exact Nat.le_refl _
    · next h => exact Nat.le_of_not_lt h

/-- Claim C10 witness: pagination bounds on the empty card list at page 1, and
the clamp applied from an out-of-range page on a one-card list. -/
theorem pagination_total_and_in_range_witness :
    (1 ≤ totalPages [] ∧
      (paginatedJobCards [] 1).length ≤ pageSize ∧
      (totalPages [] < 1 → clampedPage [] 1 = totalPages []) ∧
      1 ≤ clampedPage [] 1 ∧ clampedPage [] 1 ≤ totalPages []) ∧
    clampedPage [⟨"k", "t", "u", "n", "w", "cp", "co", "s"⟩] 5
      = totalPages [⟨"k", "t", "u", "n", "w", "cp", "co", "s"⟩] :=
  ⟨pagination_total_and_in_range [] 1 (by decide),
   (pagination_total_and_in_range [⟨"k", "t", "u", "n", "w", "cp", "co", "s"⟩] 5
      (by decide)).2.2.1 (by decide)⟩
